import Mathlib

/-!
Shallow embedding of the fuel-request approval workflow of the
groupe-alh-carburation repository.

The embedded code:
- the `FuelRequests` page (src/unnamed/part_004): `fetchDemandes`,
  `handleValidation`, `canValidate`;
- the `NewFuelRequest` page (src/src/pages/NewFuelRequest.tsx):
  `fetchVehicules`, the react-hook-form field rules, `uploadFiles`, `onSubmit`;
- the row-level-security policies of the initial migration
  (src/unnamed/part_000): read/insert policies on `demandes_carburant`.

Database calls are modelled by explicit state passing over a `Store` value
holding the relevant tables, with a fault-injection record standing for the
possible failure of each individual supabase call (the code issues them
sequentially, with no transaction).
-/

namespace ALH

/-- UserRole (src/src/types/index.ts line 1). -/
inductive Role where
  | chauffeur
  | pompiste
  | superviseur
  | directeur
  | admin
deriving DecidableEq, Repr, Fintype

/-- StatutDemande (src/src/types/index.ts line 26). -/
inductive Statut where
  | en_attente
  | valide_superviseur
  | valide_pompiste
  | valide_dg
  | rejete
deriving DecidableEq, Repr, Fintype

/-- StatutValidation (src/src/types/index.ts line 54). -/
inductive StatutValidation where
  | approuve
  | rejete
deriving DecidableEq, Repr, Fintype

/-- The fields of a User that the workflow reads (identifier and role). -/
structure User where
  id : Nat
  role : Role
deriving DecidableEq, Repr

/-- DemandeCarburant (src/src/types/index.ts lines 28-44), with identifiers
as naturals and quantities in hundredths of a liter (the form input has
step 0.01). The presentation-only joined fields are omitted. -/
structure DemandeCarburant where
  id : Nat
  id_utilisateur : Nat
  id_vehicule : Nat
  km_compteur : Int
  site : String
  mission : String
  quantite_demandee : Nat
  quantite_servie : Option Nat := none
  raison : String
  date_demande : Nat := 0
  statut : Statut
deriving DecidableEq, Repr

/-- Vehicule (src/src/types/index.ts lines 18-24). -/
structure Vehicule where
  id : Nat
  immatriculation : String
  id_type : Nat
  actif : Bool
deriving DecidableEq, Repr

/-- Validation (src/src/types/index.ts lines 56-65): the row inserted by
handleValidation (part_004 lines 106-114). -/
structure Validation where
  id_demande : Nat
  valide_par : Nat
  niveau_validation : Nat
  statut_validation : StatutValidation
  commentaire : Option String
deriving DecidableEq, Repr

/-- Justificatif row inserted by uploadFiles (NewFuelRequest.tsx lines 92-105). -/
structure Justificatif where
  id_demande : Nat
  nom_fichier : String
deriving DecidableEq, Repr

/-- A row of the logs table, written through the log_action rpc
(part_000 lines 449-455 of the migration). -/
structure LogEntry where
  utilisateur_id : Nat
  action : String
  details : String
deriving DecidableEq, Repr

/-- The tables of the Request Store that the embedded operations touch. -/
structure Store where
  demandes : List DemandeCarburant
  validations : List Validation
  vehicules : List Vehicule
  justificatifs : List Justificatif
  logs : List LogEntry
deriving DecidableEq, Repr

/-- Which of the sequential supabase calls inside handleValidation fail:
the status update (part_004 line 98), the validations insert (line 106),
the log_action rpc (line 119). -/
structure Faults where
  updateFails : Bool
  insertFails : Bool
  logFails : Bool
deriving DecidableEq, Repr

/-- A run in which every store call succeeds. -/
def noFaults : Faults := ⟨false, false, false⟩

/-- Observable outcome of handleValidation, one constructor per exit of the
function: the silent return when the demande is missing (line 77), the
toast for the unauthorized else-branch (line 93), the success toast
(line 125), and the catch-block error toast (line 130). -/
inductive ValidationResult where
  | silentReturn
  | nonAutorisee
  | success (newStatut : Statut) (niveau : Nat)
  | erreurValidation
deriving DecidableEq, Repr

/-- Whether the outcome shows any message to the caller: every branch of
handleValidation raises a toast except the missing-demande early return. -/
def surfacesMessage : ValidationResult → Bool
  | .silentReturn => false
  | _ => true

/-- The if/else chain of handleValidation (part_004 lines 83-95) computing
the next status and the validation level from the caller role and the
current status, or nothing when the final else-branch is taken. -/
def decideBranch (role : Role) (statut : Statut) (outcome : StatutValidation) :
    Option (Statut × Nat) :=
  if role = .superviseur ∧ statut = .en_attente then
    some (if outcome = .approuve then .valide_superviseur else .rejete, 1)
  else if role = .pompiste ∧ statut = .valide_superviseur then
    some (if outcome = .approuve then .valide_pompiste else .rejete, 2)
  else if role = .directeur ∧ statut = .valide_pompiste then
    some (if outcome = .approuve then .valide_dg else .rejete, 3)
  else
    none

/-- The update call of handleValidation (part_004 lines 98-101): set the
status of every row whose id matches demandeId. -/
def updateStatut (demandes : List DemandeCarburant) (demandeId : Nat)
    (s : Statut) : List DemandeCarburant :=
  demandes.map fun d => if d.id = demandeId then { d with statut := s } else d

/-- Text of the log_action call of handleValidation (part_004 lines 119-123). -/
def validationLogEntry (u : User) (demandeId : Nat) (oc : StatutValidation)
    (niveau : Nat) (commentaire : Option String) : LogEntry :=
  { utilisateur_id := u.id
    action := "Validation " ++
      (match oc with | .approuve => "approuve" | .rejete => "rejete") ++
      " - Niveau " ++ toString niveau
    details := "Demande " ++ toString demandeId ++ " - " ++ commentaire.getD "" }

/-- handleValidation (part_004 lines 74-132): look up the demande in the
fetched list; run the role/status if-chain; then issue, in sequence, the
status update, the validations insert and the log_action rpc.  Each of the
first two raises into the catch block when it fails; the rpc result is
ignored by the code, so its failure only omits the log row. -/
def handleValidation (user : User) (store : Store) (demandeId : Nat)
    (statut : StatutValidation) (commentaire : Option String)
    (faults : Faults) : Store × ValidationResult :=
  match store.demandes.find? (fun d => d.id == demandeId) with
  | none => (store, .silentReturn)
  | some demande =>
    match decideBranch user.role demande.statut statut with
    | none => (store, .nonAutorisee)
    | some (newStatut, niveau) =>
      if faults.updateFails then (store, .erreurValidation)
      else
        let store1 : Store :=
          { store with demandes := updateStatut store.demandes demandeId newStatut }
        if faults.insertFails then (store1, .erreurValidation)
        else
          let store2 : Store :=
            { store1 with validations := store1.validations ++
                [⟨demandeId, user.id, niveau, statut, commentaire⟩] }
          let store3 : Store :=
            if faults.logFails then store2
            else { store2 with logs := store2.logs ++
                [validationLogEntry user demandeId statut niveau commentaire] }
          (store3, .success newStatut niveau)

/-- canValidate (part_004 lines 151-164). -/
def canValidate (user : User) (demande : DemandeCarburant) : Bool :=
  match user.role with
  | .superviseur => demande.statut == .en_attente
  | .pompiste => demande.statut == .valide_superviseur
  | .directeur => demande.statut == .valide_pompiste
  | _ => false

/-- RLS policy "Users can read relevant fuel requests" on demandes_carburant
(part_000 lines 174-185): own rows, or any row for the four staff roles. -/
def rlsCanReadDemande (caller : User) (d : DemandeCarburant) : Bool :=
  d.id_utilisateur == caller.id ||
    (caller.role == .superviseur || caller.role == .directeur ||
     caller.role == .admin || caller.role == .pompiste)

/-- fetchDemandes (part_004 lines 36-72): the select returns the rows the
RLS read policy admits, and the client adds an eq filter on the requester
when the caller is a chauffeur.  The date ordering of the query is
presentation-only and omitted.  The function is read-only: it returns a
list and leaves the store untouched. -/
def fetchDemandes (caller : User) (store : Store) : List DemandeCarburant :=
  let visible := store.demandes.filter (fun d => rlsCanReadDemande caller d)
  if caller.role == .chauffeur then
    visible.filter (fun d => d.id_utilisateur == caller.id)
  else
    visible

/-- fetchVehicules (NewFuelRequest.tsx lines 34-51): the select filters on
actif = true, so the form only offers active vehicles.  The ordering by
immatriculation is presentation-only and omitted. -/
def fetchVehicules (store : Store) : List Vehicule :=
  store.vehicules.filter (·.actif)

/-- FuelRequestForm (NewFuelRequest.tsx lines 10-17).  The vehicle select is
an Option because its empty default choice carries no id; the quantity is
in hundredths of a liter (input step 0.01). -/
structure FuelRequestForm where
  id_vehicule : Option Nat
  km_compteur : Int
  site : String
  mission : String
  quantite_demandee : Nat
  raison : String
deriving DecidableEq, Repr

/-- The react-hook-form register rules of the form (NewFuelRequest.tsx
lines 178, 206-209, 225-228, 243, 258, 274): every field required,
km_compteur at least 0, quantite_demandee at least 0.01 L (one unit). -/
def formValid (f : FuelRequestForm) : Bool :=
  f.id_vehicule.isSome && decide (0 ≤ f.km_compteur) &&
    decide (1 ≤ f.quantite_demandee) &&
    !(f.site == "") && !(f.mission == "") && !(f.raison == "")

/-- RLS policy "Chauffeurs can create fuel requests" on demandes_carburant
(part_000 lines 187-198): the inserted row must belong to the caller and
the caller must have role chauffeur. -/
def rlsCanInsertDemande (caller : User) (d : DemandeCarburant) : Bool :=
  (d.id_utilisateur == caller.id) && (caller.role == .chauffeur)

/-- Which of the sequential calls inside onSubmit fail: the
demandes_carburant insert (NewFuelRequest.tsx line 116), the attachment
upload / justificatifs insert of uploadFiles (lines 77-108), the
log_action rpc (line 134, result ignored by the code). -/
structure SubmitFaults where
  insertFails : Bool
  uploadFails : Bool
  logFails : Bool
deriving DecidableEq, Repr

/-- A submission run in which every store call succeeds. -/
def noSubmitFaults : SubmitFaults := ⟨false, false, false⟩

/-- Observable outcome of a submission: the form blocks the submit with
field errors (handleSubmit never invokes onSubmit), or onSubmit lands in
its catch block with the generic creation-error toast (line 144), or the
success toast fires and the page navigates away (lines 140-141). -/
inductive SubmitResult where
  | fieldErrors
  | erreurCreation
  | creee
deriving DecidableEq, Repr

/-- The row inserted by onSubmit (NewFuelRequest.tsx lines 116-124): the
spread form data plus the caller id and the en_attente status. -/
def nouvelleDemande (user : User) (f : FuelRequestForm) (newId : Nat) :
    DemandeCarburant :=
  { id := newId
    id_utilisateur := user.id
    id_vehicule := f.id_vehicule.getD 0
    km_compteur := f.km_compteur
    site := f.site
    mission := f.mission
    quantite_demandee := f.quantite_demandee
    quantite_servie := none
    raison := f.raison
    date_demande := 0
    statut := .en_attente }

/-- onSubmit (NewFuelRequest.tsx lines 110-148): insert the demande (the
store enforces the chauffeur insert policy); when files were chosen, run
uploadFiles, whose failure raises into the same catch block but does not
remove the already-inserted demande; then the log_action rpc (failure
ignored) and the success toast. -/
def onSubmit (user : User) (store : Store) (f : FuelRequestForm)
    (files : List String) (newId : Nat) (faults : SubmitFaults) :
    Store × SubmitResult :=
  let d := nouvelleDemande user f newId
  if faults.insertFails || !(rlsCanInsertDemande user d) then
    (store, .erreurCreation)
  else
    let store1 : Store := { store with demandes := store.demandes ++ [d] }
    if !files.isEmpty && faults.uploadFails then
      (store1, .erreurCreation)
    else
      let store2 : Store :=
        if files.isEmpty then store1
        else { store1 with justificatifs :=
            store1.justificatifs ++ files.map (fun nom => ⟨newId, nom⟩) }
      let store3 : Store :=
        if faults.logFails then store2
        else { store2 with logs := store2.logs ++
            [⟨user.id, "Creation demande carburant", ""⟩] }
      (store3, .creee)

/-- The submission operation as the page exposes it:
handleSubmit(onSubmit) runs onSubmit only when every register rule passes,
otherwise it renders the field errors and performs no store call. -/
def submitRequest (user : User) (store : Store) (f : FuelRequestForm)
    (files : List String) (newId : Nat) (faults : SubmitFaults) :
    Store × SubmitResult :=
  if formValid f then onSubmit user store f files newId faults
  else (store, .fieldErrors)

/-- One handleValidation invocation, for reasoning about call sequences. -/
structure Call where
  user : User
  demandeId : Nat
  statut : StatutValidation
  commentaire : Option String
  faults : Faults

/-- Fold a sequence of handleValidation calls over the store. -/
def runCalls (store : Store) : List Call → Store
  | [] => store
  | c :: cs =>
      runCalls (handleValidation c.user store c.demandeId c.statut
        c.commentaire c.faults).1 cs

/-- The forward order of the approval sequence: a status may stay put,
advance along en_attente, valide_superviseur, valide_pompiste, valide_dg,
or fall to rejete from any non-terminal point; valide_dg and rejete are
terminal. -/
def statutLe : Statut → Statut → Bool
  | .en_attente, _ => true
  | .valide_superviseur, .valide_superviseur => true
  | .valide_superviseur, .valide_pompiste => true
  | .valide_superviseur, .valide_dg => true
  | .valide_superviseur, .rejete => true
  | .valide_pompiste, .valide_pompiste => true
  | .valide_pompiste, .valide_dg => true
  | .valide_pompiste, .rejete => true
  | .valide_dg, .valide_dg => true
  | .rejete, .rejete => true
  | _, _ => false

/-- A pending demand used to instantiate the theorems on concrete inputs. -/
def demandeR1 : DemandeCarburant :=
  { id := 1, id_utilisateur := 2, id_vehicule := 5, km_compteur := 1000,
    site := "Nord", mission := "Transport", quantite_demandee := 5000,
    raison := "mission", statut := .en_attente }

/-- A store holding the single pending demand. -/
def store0 : Store := ⟨[demandeR1], [], [], [], []⟩

/-- A store holding the demand already rejected. -/
def storeRejete : Store := ⟨[{ demandeR1 with statut := .rejete }], [], [], [], []⟩

/-- Concrete callers, one per role of interest. -/
def chauffeurD1 : User := ⟨2, .chauffeur⟩

def superviseurS1 : User := ⟨3, .superviseur⟩

def pompisteF1 : User := ⟨4, .pompiste⟩

def directeurG1 : User := ⟨6, .directeur⟩

/-- A form filling every field with admissible values. -/
def formF1 : FuelRequestForm :=
  { id_vehicule := some 5, km_compteur := 1000, site := "Nord",
    mission := "Transport", quantite_demandee := 5000, raison := "mission" }

section Lemmas

/-- The else-branch of the if-chain is taken exactly outside the three
rows of the transition table. -/
theorem decideBranch_none_iff :
    ∀ (r : Role) (s : Statut) (oc : StatutValidation),
      decideBranch r s oc = none ↔
        ¬((r = .superviseur ∧ s = .en_attente) ∨
          (r = .pompiste ∧ s = .valide_superviseur) ∨
          (r = .directeur ∧ s = .valide_pompiste)) := by
  decide

/-- Full case analysis of the if-chain: either the else-branch, or one of
the three rows with its next status and level. -/
theorem decideBranch_cases :
    ∀ (r : Role) (s : Statut) (oc : StatutValidation),
      decideBranch r s oc = none ∨
      (r = .superviseur ∧ s = .en_attente ∧ decideBranch r s oc =
        some (if oc = .approuve then .valide_superviseur else .rejete, 1)) ∨
      (r = .pompiste ∧ s = .valide_superviseur ∧ decideBranch r s oc =
        some (if oc = .approuve then .valide_pompiste else .rejete, 2)) ∨
      (r = .directeur ∧ s = .valide_pompiste ∧ decideBranch r s oc =
        some (if oc = .approuve then .valide_dg else .rejete, 3)) := by
  decide

/-- Every row of the if-chain moves the status forward. -/
theorem decideBranch_statutLe (r : Role) (s : Statut) (oc : StatutValidation)
    (ns : Statut) (lvl : Nat) (h : decideBranch r s oc = some (ns, lvl)) :
    statutLe s ns = true := by
  cases r <;> cases s <;> cases oc <;> simp_all [decideBranch] <;>
    (obtain ⟨h1, h2⟩ := h) <;> subst h1 <;> rfl

/-- After a row of the if-chain fires, the same caller role matches no row
against the new status. -/
theorem decideBranch_stale (r : Role) (s : Statut) (oc : StatutValidation)
    (ns : Statut) (lvl : Nat) (oc2 : StatutValidation)
    (h : decideBranch r s oc = some (ns, lvl)) :
    decideBranch r ns oc2 = none := by
  cases r <;> cases s <;> cases oc <;> simp_all [decideBranch] <;>
    (obtain ⟨h1, h2⟩ := h) <;> subst h1 <;> cases oc2 <;> decide

/-- No row of the if-chain matches a rejected or fully approved demand. -/
theorem decideBranch_terminal (r : Role) (oc : StatutValidation)
    (s : Statut) (h : s = .rejete ∨ s = .valide_dg) :
    decideBranch r s oc = none := by
  rcases h with h | h <;> subst h <;> cases r <;> cases oc <;> rfl

/-- The update keeps every row id. -/
theorem updateStatut_id (d : DemandeCarburant) (i : Nat) (s : Statut) :
    (if d.id = i then { d with statut := s } else d).id = d.id := by
  split <;> rfl

/-- Looking a row up after the status update finds the same row, with its
status rewritten when its id is the updated one. -/
theorem find?_updateStatut (l : List DemandeCarburant) (i : Nat) (s : Statut)
    (j : Nat) :
    (updateStatut l i s).find? (fun x => x.id == j) =
      (l.find? (fun x => x.id == j)).map
        (fun d => if d.id = i then { d with statut := s } else d) := by
  induction l with
  | nil => rfl
  | cons a l ih =>
    have hid : ((if a.id = i then { a with statut := s } else a).id == j) =
        (a.id == j) := by
      rw [updateStatut_id]
    simp only [updateStatut, List.map_cons, List.find?_cons]
    rw [hid]
    cases hb : (a.id == j)
    · exact ih
    · rfl

/-- handleValidation on a missing request: the early return of line 77. -/
theorem handleValidation_notFound (u : User) (st : Store) (i : Nat)
    (oc : StatutValidation) (cm : Option String) (fl : Faults)
    (hfind : st.demandes.find? (fun x => x.id == i) = none) :
    handleValidation u st i oc cm fl = (st, .silentReturn) := by
  simp only [handleValidation, hfind]

/-- handleValidation in the else-branch of the if-chain. -/
theorem handleValidation_unauthorized (u : User) (st : Store) (i : Nat)
    (oc : StatutValidation) (cm : Option String) (fl : Faults)
    (d : DemandeCarburant)
    (hfind : st.demandes.find? (fun x => x.id == i) = some d)
    (hbr : decideBranch u.role d.statut oc = none) :
    handleValidation u st i oc cm fl = (st, .nonAutorisee) := by
  simp only [handleValidation, hfind, hbr]

/-- Inversion of a successful handleValidation run: the demande was found,
a row of the if-chain produced the returned status and level, and the
result store holds the updated status and exactly one appended validation
row. -/
theorem handleValidation_success_inv (u : User) (st : Store) (i : Nat)
    (oc : StatutValidation) (cm : Option String) (fl : Faults)
    (st2 : Store) (ns : Statut) (lvl : Nat)
    (h : handleValidation u st i oc cm fl = (st2, .success ns lvl)) :
    ∃ d, st.demandes.find? (fun x => x.id == i) = some d ∧
      decideBranch u.role d.statut oc = some (ns, lvl) ∧
      st2.demandes = updateStatut st.demandes i ns ∧
      st2.validations = st.validations ++ [⟨i, u.id, lvl, oc, cm⟩] := by
  unfold handleValidation at h
  rcases hfind : st.demandes.find? (fun x => x.id == i) with _ | d
  · simp only [hfind] at h; simp at h
  · simp only [hfind] at h
    rcases hbr : decideBranch u.role d.statut oc with _ | ⟨ns', lvl'⟩
    · simp only [hbr] at h; simp at h
    · simp only [hbr] at h
      rcases fl with ⟨fu, fi, flg⟩
      cases fu
      · cases fi
        · cases flg <;>
            · simp only [Bool.false_eq_true, if_false, if_true,
                Prod.mk.injEq, ValidationResult.success.injEq] at h
              obtain ⟨hst, hns, hlvl⟩ := h
              subst hns; subst hlvl
              exact ⟨d, hfind, hbr, by rw [← hst], by rw [← hst]⟩
        · simp at h
      · simp at h

/-- The forward order is reflexive. -/
theorem statutLe_refl : ∀ s : Statut, statutLe s s = true := by decide

/-- The forward order is transitive. -/
theorem statutLe_trans : ∀ a b c : Statut, statutLe a b = true →
    statutLe b c = true → statutLe a c = true := by decide

/-- One handleValidation call moves the status of every stored demand
forward (or leaves it unchanged), whatever the faults. -/
theorem handleValidation_step (u : User) (st : Store) (i : Nat)
    (oc : StatutValidation) (cm : Option String) (fl : Faults)
    (j : Nat) (d : DemandeCarburant)
    (hfind : st.demandes.find? (fun x => x.id == j) = some d) :
    ∃ d2, (handleValidation u st i oc cm fl).1.demandes.find?
        (fun x => x.id == j) = some d2 ∧ statutLe d.statut d2.statut = true := by
  unfold handleValidation
  rcases hfi : st.demandes.find? (fun x => x.id == i) with _ | dm
  · exact ⟨d, by simp only [hfi]; exact hfind, statutLe_refl d.statut⟩
  · simp only [hfi]
    rcases hbr : decideBranch u.role dm.statut oc with _ | ⟨ns, lvl⟩
    · simp only [hbr]; exact ⟨d, hfind, statutLe_refl d.statut⟩
    · simp only [hbr]
      rcases fl with ⟨fu, fi, flg⟩
      cases fu
      · have hup : ∃ d2,
            (updateStatut st.demandes i ns).find? (fun x => x.id == j) =
              some d2 ∧ statutLe d.statut d2.statut = true := by
          rw [find?_updateStatut, hfind]
          by_cases hdi : d.id = i
          · have hdj : d.id = j := by simpa using List.find?_some hfind
            have hij : i = j := by rw [← hdi, hdj]
            subst hij
            have hdm : dm = d := by
              rw [hfi] at hfind
              injection hfind
            refine ⟨{ d with statut := ns }, by simp [hdi], ?_⟩
            have hsle := decideBranch_statutLe u.role dm.statut oc ns lvl hbr
            rw [hdm] at hsle
            exact hsle
          · exact ⟨d, by simp [hdi], statutLe_refl d.statut⟩
        cases fi <;> cases flg <;> simpa using hup
      · exact ⟨d, by simpa using hfind, statutLe_refl d.statut⟩

/-- A whole sequence of handleValidation calls moves the status of every
stored demand forward. -/
theorem runCalls_statutLe (calls : List Call) (st : Store) (j : Nat)
    (d : DemandeCarburant)
    (hfind : st.demandes.find? (fun x => x.id == j) = some d) :
    ∃ d2, (runCalls st calls).demandes.find? (fun x => x.id == j) = some d2 ∧
      statutLe d.statut d2.statut = true := by
  induction calls generalizing st d with
  | nil => exact ⟨d, hfind, statutLe_refl d.statut⟩
  | cons c cs ih =>
    obtain ⟨d1, h1, hle1⟩ := handleValidation_step c.user st c.demandeId
      c.statut c.commentaire c.faults j d hfind
    obtain ⟨d2, h2, hle2⟩ := ih _ _ h1
    exact ⟨d2, h2, statutLe_trans _ _ _ hle1 hle2⟩

end Lemmas

/-- C1: for every fuel request and caller, handleValidation changes the
request status only per the three-row transition table — (en_attente,
superviseur) to valide_superviseur or rejete at level 1, (valide_superviseur,
pompiste) to valide_pompiste or rejete at level 2, (valide_pompiste,
directeur) to valide_dg or rejete at level 3 — and for any other (status,
role) pair the call takes the unauthorized branch and leaves the store
unchanged. -/
theorem handleValidation_follows_transition_table
    (u : User) (st : Store) (i : Nat) (oc : StatutValidation)
    (cm : Option String) (fl : Faults) (d : DemandeCarburant)
    (hfind : st.demandes.find? (fun x => x.id == i) = some d) :
    (¬((u.role = .superviseur ∧ d.statut = .en_attente) ∨
       (u.role = .pompiste ∧ d.statut = .valide_superviseur) ∨
       (u.role = .directeur ∧ d.statut = .valide_pompiste)) →
      handleValidation u st i oc cm fl = (st, .nonAutorisee)) ∧
    (∀ st2 ns lvl,
      handleValidation u st i oc cm fl = (st2, .success ns lvl) →
      st2.demandes = updateStatut st.demandes i ns ∧
      ((u.role = .superviseur ∧ d.statut = .en_attente ∧ lvl = 1 ∧
         ns = (if oc = .approuve then Statut.valide_superviseur
               else Statut.rejete)) ∨
       (u.role = .pompiste ∧ d.statut = .valide_superviseur ∧ lvl = 2 ∧
         ns = (if oc = .approuve then Statut.valide_pompiste
               else Statut.rejete)) ∨
       (u.role = .directeur ∧ d.statut = .valide_pompiste ∧ lvl = 3 ∧
         ns = (if oc = .approuve then Statut.valide_dg
               else Statut.rejete)))) := by
  constructor
  · intro hn
    exact handleValidation_unauthorized u st i oc cm fl d hfind
      ((decideBranch_none_iff u.role d.statut oc).mpr hn)
  · intro st2 ns lvl h
    obtain ⟨d', hfind', hbr, hdem, hval⟩ :=
      handleValidation_success_inv u st i oc cm fl st2 ns lvl h
    have hd : d' = d := by rw [hfind] at hfind'; injection hfind' with he; exact he.symm
    rw [hd] at hbr
    refine ⟨hdem, ?_⟩
    rcases decideBranch_cases u.role d.statut oc with hc | hc | hc | hc
    · rw [hc] at hbr; exact absurd hbr (by simp)
    · obtain ⟨hr, hs, he⟩ := hc
      rw [he] at hbr
      injection hbr with hp
      injection hp with ha hb
      exact Or.inl ⟨hr, hs, hb.symm, ha.symm⟩
    · obtain ⟨hr, hs, he⟩ := hc
      rw [he] at hbr
      injection hbr with hp
      injection hp with ha hb
      exact Or.inr (Or.inl ⟨hr, hs, hb.symm, ha.symm⟩)
    · obtain ⟨hr, hs, he⟩ := hc
      rw [he] at hbr
      injection hbr with hp
      injection hp with ha hb
      exact Or.inr (Or.inr ⟨hr, hs, hb.symm, ha.symm⟩)

/-- C1 witness: a pompiste acting on a pending demand is outside the table
and the call leaves the store untouched. -/
theorem handleValidation_follows_transition_table_witness :
    handleValidation pompisteF1 store0 1 .approuve none noFaults =
      (store0, .nonAutorisee) :=
  (handleValidation_follows_transition_table pompisteF1 store0 1 .approuve
    none noFaults demandeR1 (by decide)).1 (by decide)

/-- C2: the three effects of a decision are not atomic in the code — when
the validations insert fails after the status update succeeded, the store
is left with the status advanced and no ValidationRecord, and the caller
only sees the generic validation error. -/
theorem handleValidation_insert_failure_incoherent_state :
    (handleValidation superviseurS1 store0 1 .approuve none
        ⟨false, true, false⟩).2 = .erreurValidation ∧
    ((handleValidation superviseurS1 store0 1 .approuve none
        ⟨false, true, false⟩).1.demandes.find?
        (fun x => x.id == 1)).map (fun d => d.statut) =
      some .valide_superviseur ∧
    (handleValidation superviseurS1 store0 1 .approuve none
        ⟨false, true, false⟩).1.validations = [] := by
  decide

/-- C3: every successful decision appends exactly one ValidationRecord,
whose level is the level of the fired table row. -/
theorem handleValidation_one_validation_record
    (u : User) (st : Store) (i : Nat) (oc : StatutValidation)
    (cm : Option String) (fl : Faults) (st2 : Store) (ns : Statut)
    (lvl : Nat) (d : DemandeCarburant)
    (hfind : st.demandes.find? (fun x => x.id == i) = some d)
    (h : handleValidation u st i oc cm fl = (st2, .success ns lvl)) :
    st2.validations = st.validations ++ [⟨i, u.id, lvl, oc, cm⟩] ∧
    ((u.role = .superviseur ∧ d.statut = .en_attente ∧ lvl = 1) ∨
     (u.role = .pompiste ∧ d.statut = .valide_superviseur ∧ lvl = 2) ∨
     (u.role = .directeur ∧ d.statut = .valide_pompiste ∧ lvl = 3)) := by
  obtain ⟨d', hfind', hbr, hdem, hval⟩ :=
    handleValidation_success_inv u st i oc cm fl st2 ns lvl h
  have hd : d' = d := by rw [hfind] at hfind'; injection hfind' with he; exact he.symm
  rw [hd] at hbr
  refine ⟨hval, ?_⟩
  rcases decideBranch_cases u.role d.statut oc with hc | hc | hc | hc
  · rw [hc] at hbr; exact absurd hbr (by simp)
  · obtain ⟨hr, hs, he⟩ := hc
    rw [he] at hbr
    injection hbr with hp
    injection hp with ha hb
    exact Or.inl ⟨hr, hs, hb.symm⟩
  · obtain ⟨hr, hs, he⟩ := hc
    rw [he] at hbr
    injection hbr with hp
    injection hp with ha hb
    exact Or.inr (Or.inl ⟨hr, hs, hb.symm⟩)
  · obtain ⟨hr, hs, he⟩ := hc
    rw [he] at hbr
    injection hbr with hp
    injection hp with ha hb
    exact Or.inr (Or.inr ⟨hr, hs, hb.symm⟩)

/-- C3 witness: a superviseur approving the pending demand appends exactly
the level-1 record. -/
theorem handleValidation_one_validation_record_witness :
    (handleValidation superviseurS1 store0 1 .approuve none
        ⟨false, false, true⟩).1.validations =
      store0.validations ++ [⟨1, superviseurS1.id, 1, .approuve, none⟩] ∧
    ((superviseurS1.role = .superviseur ∧ demandeR1.statut = .en_attente ∧
        1 = 1) ∨
     (superviseurS1.role = .pompiste ∧
        demandeR1.statut = .valide_superviseur ∧ 1 = 2) ∨
     (superviseurS1.role = .directeur ∧
        demandeR1.statut = .valide_pompiste ∧ 1 = 3)) :=
  handleValidation_one_validation_record superviseurS1 store0 1 .approuve
    none ⟨false, false, true⟩ _ .valide_superviseur 1 demandeR1
    (by decide) (by decide)

/-- C4 counterexample: after a superviseur approval succeeds, repeating
the identical call yields the same nonAutorisee outcome that a plainly
unauthorized caller gets — the code has no distinct stale-transition
error. -/
theorem second_identical_call_no_stale_error :
    handleValidation superviseurS1
        (handleValidation superviseurS1 store0 1 .approuve none noFaults).1
        1 .approuve none noFaults =
      ((handleValidation superviseurS1 store0 1 .approuve none noFaults).1,
        .nonAutorisee) ∧
    (handleValidation pompisteF1 store0 1 .approuve none noFaults).2 =
      .nonAutorisee := by
  decide

/-- C4 amended: a second call with identical arguments after a successful
one fails through the unauthorized branch (the code does not distinguish a
stale transition from an unauthorized one) and the store — in particular
the validations table — is left exactly as the first call left it. -/
theorem second_identical_call_unauthorized
    (u : User) (st st1 : Store) (i : Nat) (oc : StatutValidation)
    (cm : Option String) (fl1 fl2 : Faults) (ns : Statut) (lvl : Nat)
    (h : handleValidation u st i oc cm fl1 = (st1, .success ns lvl)) :
    handleValidation u st1 i oc cm fl2 = (st1, .nonAutorisee) := by
  obtain ⟨d, hfind, hbr, hdem, hval⟩ :=
    handleValidation_success_inv u st i oc cm fl1 st1 ns lvl h
  have hdi : d.id = i := by simpa using List.find?_some hfind
  have hfind1 : st1.demandes.find? (fun x => x.id == i) =
      some { d with statut := ns } := by
    rw [hdem, find?_updateStatut, hfind]
    simp [hdi]
  exact handleValidation_unauthorized u st1 i oc cm fl2 _ hfind1
    (decideBranch_stale u.role d.statut oc ns lvl oc hbr)

/-- C4 witness: the concrete double approval by the same superviseur. -/
theorem second_identical_call_unauthorized_witness :
    handleValidation superviseurS1
      (handleValidation superviseurS1 store0 1 .approuve none noFaults).1
      1 .approuve none ⟨false, false, true⟩ =
    ((handleValidation superviseurS1 store0 1 .approuve none noFaults).1,
      .nonAutorisee) :=
  second_identical_call_unauthorized superviseurS1 store0 _ 1 .approuve none
    noFaults ⟨false, false, true⟩ .valide_superviseur 1 (by decide)

/-- C5: over any sequence of decisions the status of every stored demand
only moves forward along the approval chain or into rejete, and a demand
found in rejete or valide_dg admits no successful decision — the call
takes the unauthorized branch and leaves the store unchanged. -/
theorem statut_forward_only :
    (∀ (calls : List Call) (st : Store) (j : Nat)
        (d d2 : DemandeCarburant),
      st.demandes.find? (fun x => x.id == j) = some d →
      (runCalls st calls).demandes.find? (fun x => x.id == j) = some d2 →
      statutLe d.statut d2.statut = true) ∧
    (∀ (u : User) (st : Store) (i : Nat) (oc : StatutValidation)
        (cm : Option String) (fl : Faults) (d : DemandeCarburant),
      st.demandes.find? (fun x => x.id == i) = some d →
      (d.statut = .rejete ∨ d.statut = .valide_dg) →
      handleValidation u st i oc cm fl = (st, .nonAutorisee)) := by
  constructor
  · intro calls st j d d2 hfind hfind2
    obtain ⟨d2', h2', hle⟩ := runCalls_statutLe calls st j d hfind
    rw [hfind2] at h2'
    have hd : d2 = d2' := by injection h2'
    rw [hd]
    exact hle
  · intro u st i oc cm fl d hfind hterm
    exact handleValidation_unauthorized u st i oc cm fl d hfind
      (decideBranch_terminal u.role oc d.statut hterm)

/-- C5 witness: no decision succeeds on the rejected demand. -/
theorem statut_forward_only_witness :
    handleValidation superviseurS1 storeRejete 1 .approuve none noFaults =
      (storeRejete, .nonAutorisee) :=
  statut_forward_only.2 superviseurS1 storeRejete 1 .approuve none noFaults
    { demandeR1 with statut := .rejete } (by decide) (Or.inl rfl)

/-- C6 counterexample: a decision on an id absent from the store returns
through the silent early-return branch — no state is mutated, but no
NotFoundError or any other message is surfaced to the caller. -/
theorem missing_request_silent_counterexample :
    handleValidation superviseurS1 store0 99 .approuve none noFaults =
      (store0, .silentReturn) ∧
    surfacesMessage
      (handleValidation superviseurS1 store0 99 .approuve none noFaults).2 =
      false := by
  decide

/-- C6 amended: when the requestId matches no stored demand, the call is a
silent no-op — the store is returned unchanged and the outcome carries no
user-visible message (the code has no typed NotFoundError). -/
theorem handleValidation_missing_request_noop
    (u : User) (st : Store) (i : Nat) (oc : StatutValidation)
    (cm : Option String) (fl : Faults)
    (hfind : st.demandes.find? (fun x => x.id == i) = none) :
    handleValidation u st i oc cm fl = (st, .silentReturn) ∧
    surfacesMessage (handleValidation u st i oc cm fl).2 = false := by
  have h := handleValidation_notFound u st i oc cm fl hfind
  exact ⟨h, by rw [h]; rfl⟩

/-- C6 witness: the silent no-op on a concrete missing id. -/
theorem handleValidation_missing_request_noop_witness :
    handleValidation directeurG1 store0 42 .rejete none noFaults =
      (store0, .silentReturn) ∧
    surfacesMessage
      (handleValidation directeurG1 store0 42 .rejete none noFaults).2 =
      false :=
  handleValidation_missing_request_noop directeurG1 store0 42 .rejete none
    noFaults (by decide)

/-- C7: a chauffeur obtains exactly the demands they authored (never
another user's), every other role obtains the whole table, and the read is
a pure function of the store. -/
theorem fetchDemandes_visibility (caller : User) (store : Store) :
    (∀ d, d ∈ fetchDemandes caller store ↔
      (d ∈ store.demandes ∧
        (caller.role = .chauffeur → d.id_utilisateur = caller.id))) ∧
    (caller.role ≠ .chauffeur →
      fetchDemandes caller store = store.demandes) := by
  rcases caller with ⟨cid, cr⟩
  cases cr
  case chauffeur =>
    constructor
    · intro d
      simp [fetchDemandes, rlsCanReadDemande, List.mem_filter, and_assoc]
    · intro h
      exact absurd rfl h
  all_goals
    exact ⟨fun d => by simp [fetchDemandes, rlsCanReadDemande, List.mem_filter],
      fun _ => by simp [fetchDemandes, rlsCanReadDemande]⟩

/-- C7 witness: a staff caller sees the whole table. -/
theorem fetchDemandes_visibility_witness :
    fetchDemandes superviseurS1 store0 = store0.demandes :=
  (fetchDemandes_visibility superviseurS1 store0).2 (by decide)

/-- C8 counterexample: with a fully valid form, a caller whose role is not
chauffeur is stopped by the store insert policy and the code reports the
generic creation error of the catch block — not the field-level validation
rejection — while no request is created. -/
theorem submit_supervisor_not_field_error :
    submitRequest superviseurS1 store0 formF1 [] 9 noSubmitFaults =
      (store0, .erreurCreation) ∧
    SubmitResult.erreurCreation ≠ SubmitResult.fieldErrors := by
  decide

/-- C8 amended: when the form rules fail (missing vehicle choice, negative
odometer, quantity below 0.01 L, empty text fields) the submission is
rejected with field errors and nothing is created; when they pass and the
caller is a chauffeur, a fault-free run creates exactly one new pending
request owned by the caller; when they pass but the caller is not a
chauffeur, the store insert policy rejects the call and the generic
creation error is reported with nothing created; the vehicle-active
precondition is enforced by the form offering only active vehicles. -/
theorem submitRequest_preconditions
    (u : User) (st : Store) (f : FuelRequestForm) (files : List String)
    (newId : Nat) (fl : SubmitFaults) :
    (formValid f = false →
      submitRequest u st f files newId fl = (st, .fieldErrors)) ∧
    (formValid f = true → u.role ≠ .chauffeur →
      submitRequest u st f files newId fl = (st, .erreurCreation)) ∧
    (formValid f = true → u.role = .chauffeur →
      submitRequest u st f files newId noSubmitFaults =
        ({ st with
            demandes := st.demandes ++ [nouvelleDemande u f newId],
            justificatifs := st.justificatifs ++
              files.map (fun nom => ⟨newId, nom⟩),
            logs := st.logs ++
              [⟨u.id, "Creation demande carburant", ""⟩] }, .creee)) ∧
    (∀ v ∈ fetchVehicules st, v.actif = true) := by
  refine ⟨?_, ?_, ?_, ?_⟩
  · intro hv
    simp [submitRequest, hv]
  · intro hv hr
    simp [submitRequest, hv, onSubmit, rlsCanInsertDemande, nouvelleDemande,
      hr]
  · intro hv hr
    cases hf : files with
    | nil =>
      simp [submitRequest, hv, onSubmit, rlsCanInsertDemande,
        nouvelleDemande, hr, noSubmitFaults]
    | cons a l =>
      simp [submitRequest, hv, onSubmit, rlsCanInsertDemande,
        nouvelleDemande, hr, noSubmitFaults]
  · intro v hv
    exact (List.mem_filter.mp hv).2

/-- C8 witness: the concrete chauffeur submission with a valid form. -/
theorem submitRequest_preconditions_witness :
    submitRequest chauffeurD1 store0 formF1 [] 9 noSubmitFaults =
      ({ store0 with
          demandes := store0.demandes ++ [nouvelleDemande chauffeurD1 formF1 9],
          justificatifs := store0.justificatifs ++
            List.map (fun nom => ⟨9, nom⟩) [],
          logs := store0.logs ++
            [⟨chauffeurD1.id, "Creation demande carburant", ""⟩] }, .creee) :=
  (submitRequest_preconditions chauffeurD1 store0 formF1 [] 9
    noSubmitFaults).2.2.1 (by decide) rfl

/-- C9: when the attachment upload fails after the request row was
inserted, the created request stays in the store (no rollback), but the
reported outcome is the same generic creation error that a complete
failure produces — partial success is not distinguished from failure. -/
theorem upload_failure_keeps_request_plain_error :
    (submitRequest chauffeurD1 store0 formF1 ["facture.pdf"] 9
        ⟨false, true, false⟩).2 = .erreurCreation ∧
    nouvelleDemande chauffeurD1 formF1 9 ∈
      (submitRequest chauffeurD1 store0 formF1 ["facture.pdf"] 9
        ⟨false, true, false⟩).1.demandes ∧
    (submitRequest chauffeurD1 store0 formF1 ["facture.pdf"] 9
        ⟨true, false, false⟩).2 = .erreurCreation := by
  decide

/-- C10: the canValidate guard returns true exactly when handleValidation
does not take its unauthorized branch for the same demand and caller: the
boolean gate and the transition conditionals encode the same authorized
set. -/
theorem canValidate_iff_not_unauthorized
    (u : User) (st : Store) (i : Nat) (oc : StatutValidation)
    (cm : Option String) (fl : Faults) (d : DemandeCarburant)
    (hfind : st.demandes.find? (fun x => x.id == i) = some d) :
    canValidate u d = true ↔
      (handleValidation u st i oc cm fl).2 ≠ .nonAutorisee := by
  have hcv : canValidate u d = (decideBranch u.role d.statut oc).isSome := by
    rcases u with ⟨uid, r⟩
    cases r <;> cases hs : d.statut <;> cases oc <;>
      simp [canValidate, decideBranch, hs]
  rcases hbr : decideBranch u.role d.statut oc with _ | ⟨ns, lvl⟩
  · rw [handleValidation_unauthorized u st i oc cm fl d hfind hbr]
    simp [hcv, hbr]
  · have hne : (handleValidation u st i oc cm fl).2 ≠ .nonAutorisee := by
      unfold handleValidation
      simp only [hfind, hbr]
      rcases fl with ⟨fu, fi, flg⟩
      cases fu <;> cases fi <;> cases flg <;> simp
    simp [hcv, hbr, hne]

/-- C10 witness: the concrete pending demand with a superviseur caller. -/
theorem canValidate_iff_not_unauthorized_witness :
    canValidate superviseurS1 demandeR1 = true ↔
      (handleValidation superviseurS1 store0 1 .approuve none noFaults).2 ≠
        .nonAutorisee :=
  canValidate_iff_not_unauthorized superviseurS1 store0 1 .approuve none
    noFaults demandeR1 (by decide)

end ALH
